import Mathlib

/-!
Verification of the scientific-calculator core (`src/Calculator.tsx`).

The expression assembler and evaluation pipeline are embedded shallowly.
Strings are `List Char`.  JavaScript numbers that arise in the state
(memory, previous answer, parsed display values) are modelled exactly as
decimals `m * 10 ^ e` (`JsDec`), together with a NaN point (`JNum`), since
every value the program parses or formats is such a decimal; the rational
value of a `JsDec` is given by `JsDec.val` and is used to state the
numeric side conditions.  The opaque mathjs evaluator is a parameter
`ev : List Char → Option JsDec` (`none` models a thrown evaluation error,
per the §6 evaluator contract "returns a number or signals failure"), and
the opaque `Number.prototype.toString` rendering is a parameter
`toS : JNum → List Char`.
-/

set_option maxHeartbeats 1000000
set_option maxRecDepth 4000

/-! ### String and digit helpers -/

/-- Numeric value of a list of decimal digit characters. -/
def digitsVal (ds : List Char) : ℕ :=
  ds.foldl (fun a c => 10 * a + (c.toNat - '0'.toNat)) 0

/-- Fuel-driven base-10 digit count (`digitCount 0 = 0`). -/
def digitCountAux : ℕ → ℕ → ℕ
  | 0, _ => 0
  | fuel + 1, n => if n = 0 then 0 else digitCountAux fuel (n / 10) + 1

/-- Number of base-10 digits of `n` (0 for `n = 0`). -/
def digitCount (n : ℕ) : ℕ := digitCountAux (n + 1) n

/-- Fuel-driven decimal rendering of a natural number. -/
def natToDigitsAux : ℕ → ℕ → List Char
  | 0, _ => []
  | fuel + 1, n =>
    if n < 10 then [Nat.digitChar n]
    else natToDigitsAux fuel (n / 10) ++ [Nat.digitChar (n % 10)]

/-- Decimal digit string of a natural number. -/
def natToDigits (n : ℕ) : List Char := natToDigitsAux (n + 1) n

/-- Fuel-driven global replacement: the semantics of JavaScript
`String.prototype.replace` with a global literal pattern — leftmost,
non-overlapping, and the replacement text is not rescanned. -/
def replaceAllAux (pat rep : List Char) : ℕ → List Char → List Char
  | 0, s => s
  | _ + 1, [] => []
  | fuel + 1, c :: rest =>
    if pat ≠ [] ∧ pat.isPrefixOf (c :: rest) then
      rep ++ replaceAllAux pat rep fuel (List.drop (pat.length - 1) rest)
    else
      c :: replaceAllAux pat rep fuel rest

/-- Semantics of `s.replace(/pat/g, rep)` for a literal pattern `pat`. -/
def replaceAll (pat rep s : List Char) : List Char :=
  replaceAllAux pat rep s.length s

/-- Whether the head of `rest` fails the `[0-9]` lookahead. -/
def headNotDigit : List Char → Bool
  | [] => true
  | d :: _ => !d.isDigit

/-- Semantics of `s.replace(/e(?![0-9])/g, rep)`: every `e` not followed by a decimal
digit is replaced by `rep` (the lookahead does not consume the next
character, and the replacement is not rescanned). -/
def replaceENotDigit (rep : List Char) : List Char → List Char
  | [] => []
  | c :: rest =>
    if c = 'e' ∧ headNotDigit rest then
      rep ++ replaceENotDigit rep rest
    else
      c :: replaceENotDigit rep rest

/-! ### Exact-decimal model of the JavaScript numbers in the state -/

/-- An exact decimal `m * 10 ^ e`. -/
structure JsDec where
  m : ℤ
  e : ℤ
deriving DecidableEq

/-- Rational value of a `JsDec`. -/
def JsDec.val (d : JsDec) : ℚ := (d.m : ℚ) * (10 : ℚ) ^ d.e

/-- Exact addition of decimals (align exponents, add mantissas). -/
def JsDec.add (a b : JsDec) : JsDec :=
  if a.e ≤ b.e then ⟨a.m + b.m * 10 ^ (b.e - a.e).toNat, a.e⟩
  else ⟨a.m * 10 ^ (a.e - b.e).toNat + b.m, b.e⟩

/-- Exact negation. -/
def JsDec.neg (a : JsDec) : JsDec := ⟨-a.m, a.e⟩

/-- Exact subtraction. -/
def JsDec.sub (a b : JsDec) : JsDec := JsDec.add a (JsDec.neg b)

/-- Decidable test for `|d.val| > 10 ^ p` by clearing the powers of ten. -/
def JsDec.absGtPow (d : JsDec) (p : ℤ) : Bool :=
  if p ≤ d.e then decide (1 < d.m.natAbs * 10 ^ (d.e - p).toNat)
  else decide (10 ^ (p - d.e).toNat < d.m.natAbs)

/-- Decidable test for `|d.val| < 10 ^ p` by clearing the powers of ten. -/
def JsDec.absLtPow (d : JsDec) (p : ℤ) : Bool :=
  if p ≤ d.e then decide (d.m.natAbs * 10 ^ (d.e - p).toNat < 1)
  else decide (d.m.natAbs < 10 ^ (p - d.e).toNat)

/-- The scientific-notation guard of the source, applied to a value `d`:
`Math.abs(d) > 1e15 || (Math.abs(d) < 1e-6 && d !== 0)`. -/
def sciCond (d : JsDec) : Bool :=
  d.absGtPow 15 || (d.absLtPow (-6) && decide (d.m ≠ 0))

/-- Model of `Number.prototype.toExponential(6)` on the exact decimal `d`
(ECMA-262: round to seven significant digits, ties away from zero, and
print `d.dddddd e±E`). -/
def toExponential6 (d : JsDec) : List Char :=
  if d.m = 0 then "0.000000e+0".data
  else
    let sgn : List Char := if d.m < 0 then ['-'] else []
    let a := d.m.natAbs
    let dc := digitCount a
    let E0 : ℤ := (dc : ℤ) - 1 + d.e
    let n0 : ℕ :=
      if dc ≤ 7 then a * 10 ^ (7 - dc)
      else (a + 10 ^ (dc - 7) / 2) / 10 ^ (dc - 7)
    let p := if n0 = 10 ^ 7 then ((10 : ℕ) ^ 6, E0 + 1) else (n0, E0)
    let ds := natToDigits p.1
    sgn ++ ds.take 1 ++ ['.'] ++ ds.drop 1 ++ ['e'] ++
      (if p.2 < 0 then ['-'] else ['+']) ++ natToDigits p.2.natAbs

/-- Model of `Number.prototype.toPrecision(10)` on the exact decimal `d`
(ECMA-262: round to ten significant digits; exponential form when the
decimal exponent is below `-7 + 1` or at least 10, else fixed form). -/
def toPrecision10 (d : JsDec) : List Char :=
  if d.m = 0 then "0.000000000".data
  else
    let sgn : List Char := if d.m < 0 then ['-'] else []
    let a := d.m.natAbs
    let dc := digitCount a
    let E0 : ℤ := (dc : ℤ) - 1 + d.e
    let n0 : ℕ :=
      if dc ≤ 10 then a * 10 ^ (10 - dc)
      else (a + 10 ^ (dc - 10) / 2) / 10 ^ (dc - 10)
    let p := if n0 = 10 ^ 10 then ((10 : ℕ) ^ 9, E0 + 1) else (n0, E0)
    let ds := natToDigits p.1
    let E := p.2
    if E < -6 ∨ 10 ≤ E then
      sgn ++ ds.take 1 ++ ['.'] ++ ds.drop 1 ++ ['e'] ++
        (if E < 0 then ['-'] else ['+']) ++ natToDigits E.natAbs
    else if 0 ≤ E then
      if E = 9 then sgn ++ ds
      else sgn ++ ds.take (E.toNat + 1) ++ ['.'] ++ ds.drop (E.toNat + 1)
    else
      sgn ++ "0.".data ++ List.replicate ((-E).toNat - 1) '0' ++ ds

/-- Exponent suffix of a JavaScript numeric literal (consumed only when
well formed, as `parseFloat` takes the longest valid numeric prefix). -/
def parseExpPart (t : List Char) : ℤ :=
  match t with
  | '-' :: u =>
    let ds := u.takeWhile Char.isDigit
    if ds = [] then 0 else -(digitsVal ds : ℤ)
  | '+' :: u =>
    let ds := u.takeWhile Char.isDigit
    if ds = [] then 0 else (digitsVal ds : ℤ)
  | u =>
    let ds := u.takeWhile Char.isDigit
    if ds = [] then 0 else (digitsVal ds : ℤ)

/-- JavaScript `parseFloat` on the strings the calculator produces:
optional sign, integer digits, optional fraction, optional exponent;
`none` models `NaN` (no digits at all). -/
def jsParseFloat (s : List Char) : Option JsDec :=
  let sp : ℤ × List Char :=
    match s with
    | '-' :: t => (-1, t)
    | '+' :: t => (1, t)
    | t => (1, t)
  let s1 := sp.2
  let intPart := s1.takeWhile Char.isDigit
  let s2 := s1.dropWhile Char.isDigit
  let fp : List Char × List Char :=
    match s2 with
    | '.' :: t => (t.takeWhile Char.isDigit, t.dropWhile Char.isDigit)
    | t => ([], t)
  if intPart = [] ∧ fp.1 = [] then none
  else
    let mant : ℤ := sp.1 * (digitsVal (intPart ++ fp.1) : ℤ)
    let expo : ℤ :=
      match fp.2 with
      | 'e' :: t => parseExpPart t
      | 'E' :: t => parseExpPart t
      | _ => 0
    some ⟨mant, expo - fp.1.length⟩

/-- A JavaScript number register: a finite decimal or `NaN`. -/
inductive JNum where
  | nan : JNum
  | num : JsDec → JNum
deriving DecidableEq

/-- JavaScript `+` on number registers (`NaN` is absorbing). -/
def JNum.add : JNum → JNum → JNum
  | .num a, .num b => .num (JsDec.add a b)
  | _, _ => .nan

/-- JavaScript `-` on number registers (`NaN` is absorbing). -/
def JNum.sub : JNum → JNum → JNum
  | .num a, .num b => .num (JsDec.sub a b)
  | _, _ => .nan

/-! ### Calculator state and operations -/

/-- The angle mode. -/
inductive AngleMode where
  | DEG : AngleMode
  | RAD : AngleMode
deriving DecidableEq

/-- The `CalculatorState` record of the source. -/
structure CalculatorState where
  display : List Char
  expression : List Char
  memory : JNum
  angleMode : AngleMode
  previousAnswer : JNum
  waitingForOperand : Bool
  hasError : Bool
deriving DecidableEq

/-- The `initialState` constant of the source. -/
def initialState : CalculatorState :=
  { display := "0".data
    expression := []
    memory := JNum.num ⟨0, 0⟩
    angleMode := AngleMode.DEG
    previousAnswer := JNum.num ⟨0, 0⟩
    waitingForOperand := false
    hasError := false }

/-- Literal produced by `pi.toString()` for the mathjs double `pi`. -/
def piLit : List Char := "3.141592653589793".data

/-- Literal produced by `e.toString()` for the mathjs double `e`. -/
def eLit : List Char := "2.718281828459045".data

/-- The `insertNumber` handler behind the digit keys. -/
def insertNumber (num : List Char) (prev : CalculatorState) : CalculatorState :=
  if prev.waitingForOperand ∨ prev.display = "0".data ∨ prev.hasError then
    { prev with
      display := num
      expression := prev.expression ++ num
      waitingForOperand := false
      hasError := false }
  else
    { prev with
      display := prev.display ++ num
      expression := prev.expression ++ num }

/-- The `insertOperator` handler: parentheses append verbatim, the display glyphs
for times, divide and minus translate to their ASCII tokens, and any
non-parenthesis operator sets `waitingForOperand`. -/
def insertOperator (op : Char) (prev : CalculatorState) : CalculatorState :=
  let newExpression :=
    if op = '(' ∨ op = ')' then prev.expression ++ [op]
    else
      prev.expression ++
        [if op = '×' then '*' else if op = '÷' then '/' else if op = '−' then '-' else op]
  { prev with
    expression := newExpression
    waitingForOperand := decide (op ≠ '(' ∧ op ≠ ')')
    hasError := false }

/-- The `insertDecimal` handler. -/
def insertDecimal (prev : CalculatorState) : CalculatorState :=
  if prev.waitingForOperand ∨ prev.hasError then
    { prev with
      display := "0.".data
      expression := prev.expression ++ "0.".data
      waitingForOperand := false
      hasError := false }
  else if '.' ∉ prev.display then
    { prev with
      display := prev.display ++ ['.']
      expression := prev.expression ++ ['.'] }
  else prev

/-- The `insertConstant` handler (`π` or `e`): numeric literal to the display, the
symbolic token to the expression. -/
def insertConstant (c : Char) (prev : CalculatorState) : CalculatorState :=
  let value := if c = 'π' then piLit else eLit
  { prev with
    display := value
    expression := prev.expression ++ [c]
    waitingForOperand := false
    hasError := false }

/-- The `insertAnswer` handler; `toS` models `Number.prototype.toString`. -/
def insertAnswer (toS : JNum → List Char) (prev : CalculatorState) : CalculatorState :=
  { prev with
    display := toS prev.previousAnswer
    expression := prev.expression ++ toS prev.previousAnswer
    waitingForOperand := false
    hasError := false }

/-- The fragment appended by `handleFunction` for each recognized key
(`none` for the `default` case of the switch). -/
def fragmentOf (func : List Char) : Option (List Char) :=
  if func = "sin".data ∨ func = "cos".data ∨ func = "tan".data then some (func ++ ['('])
  else if func = "sin⁻¹".data then some "asin(".data
  else if func = "cos⁻¹".data then some "acos(".data
  else if func = "tan⁻¹".data then some "atan(".data
  else if func = "ln".data then some "log(".data
  else if func = "log".data then some "log10(".data
  else if func = "√x".data then some "sqrt(".data
  else if func = "³√x".data then some "cbrt(".data
  else if func = "x²".data then some "^2".data
  else if func = "x³".data then some "^3".data
  else if func = "x^y".data then some "^".data
  else if func = "eˣ".data then some "exp(".data
  else if func = "10ˣ".data then some "10^(".data
  else if func = "1/x".data then some "1/(".data
  else if func = "n!".data then some "!".data
  else if func = "%".data then some "/100".data
  else if func = "y√x".data then some "nthRoot(".data
  else none

/-- The `handleFunction` handler: appends the fragment; note that the source computes
`waitingForOperand` as `func.includes('(')` — a test on the *key name*,
not on the appended fragment. -/
def handleFunction (func : List Char) (prev : CalculatorState) : CalculatorState :=
  match fragmentOf func with
  | none => prev
  | some frag =>
    { prev with
      expression := prev.expression ++ frag
      waitingForOperand := decide ('(' ∈ func)
      hasError := false }

/-- The `toggleAngleMode` handler. -/
def toggleAngleMode (prev : CalculatorState) : CalculatorState :=
  { prev with
    angleMode := if prev.angleMode = AngleMode.DEG then AngleMode.RAD else AngleMode.DEG }

/-- The `toggleSign` handler (display-only). -/
def toggleSign (prev : CalculatorState) : CalculatorState :=
  if prev.display = "0".data ∨ prev.hasError then prev
  else
    let newDisplay :=
      match prev.display with
      | '-' :: t => t
      | d => '-' :: d
    { prev with display := newDisplay }

/-- The `backspace` handler. -/
def backspace (prev : CalculatorState) : CalculatorState :=
  if prev.hasError ∨ prev.display = "0".data then
    { prev with display := "0".data, expression := [], hasError := false }
  else
    { prev with
      display := if 1 < prev.display.length then prev.display.dropLast else "0".data
      expression := prev.expression.dropLast }

/-- The `clearAll` handler. -/
def clearAll : CalculatorState := initialState

/-- The `generateRandom` handler; `r` is the decimal string form of the generated
`Math.random()` value. -/
def generateRandom (r : List Char) (prev : CalculatorState) : CalculatorState :=
  { prev with
    display := r
    expression := prev.expression ++ r
    waitingForOperand := false
    hasError := false }

/-- Result of `parseFloat(display || '0')` lifted to a number register. -/
def parseDisplay (s : List Char) : JNum :=
  match jsParseFloat (if s = [] then "0".data else s) with
  | none => JNum.nan
  | some d => JNum.num d

/-- The `memoryAdd` handler. -/
def memoryAdd (prev : CalculatorState) : CalculatorState :=
  { prev with memory := JNum.add prev.memory (parseDisplay prev.display) }

/-- The `memorySubtract` handler. -/
def memorySubtract (prev : CalculatorState) : CalculatorState :=
  { prev with memory := JNum.sub prev.memory (parseDisplay prev.display) }

/-- The `memoryRecall` handler; `toS` models `Number.prototype.toString`. -/
def memoryRecall (toS : JNum → List Char) (prev : CalculatorState) : CalculatorState :=
  { prev with
    display := toS prev.memory
    expression := prev.expression ++ toS prev.memory
    waitingForOperand := false
    hasError := false }

/-- The `memoryClear` handler. -/
def memoryClear (prev : CalculatorState) : CalculatorState :=
  { prev with memory := JNum.num ⟨0, 0⟩ }

/-! ### The evaluation pipeline -/

/-- The constant-substitution step of `calculate`:
`expression.replace(/π/g, pi.toString()).replace(/e(?![0-9])/g, e.toString())`. -/
def substConstants (e : List Char) : List Char :=
  replaceENotDigit eLit (replaceAll ['π'] piLit e)

/-- The DEG-mode rewriting step of `calculate`: six sequential global
string replacements, in source order. -/
def degRewrite (e : List Char) : List Char :=
  let e1 := replaceAll "sin(".data "sin((pi/180)*".data e
  let e2 := replaceAll "cos(".data "cos((pi/180)*".data e1
  let e3 := replaceAll "tan(".data "tan((pi/180)*".data e2
  let e4 := replaceAll "asin(".data "(180/pi)*asin(".data e3
  let e5 := replaceAll "acos(".data "(180/pi)*acos(".data e4
  replaceAll "atan(".data "(180/pi)*atan(".data e5

/-- The full pre-evaluation transformation applied by `calculate`. -/
def pipelineTransform (mode : AngleMode) (e : List Char) : List Char :=
  let e2 := substConstants e
  if mode = AngleMode.DEG then degRewrite e2 else e2

/-- The `calculate` handler: empty expression is a no-op; otherwise transform, hand
to the opaque evaluator `ev`, and either format the result or enter the
error state.  `toS` models `Number.prototype.toString`. -/
def calculate (toS : JNum → List Char) (ev : List Char → Option JsDec)
    (prev : CalculatorState) : CalculatorState :=
  if prev.expression = [] then prev
  else
    match ev (pipelineTransform prev.angleMode prev.expression) with
    | none =>
      { prev with
        display := "Error".data
        expression := []
        hasError := true }
    | some result =>
      let resultStr :=
        if sciCond result then toExponential6 result else toS (JNum.num result)
      { prev with
        display := resultStr
        expression := []
        previousAnswer := JNum.num result
        waitingForOperand := true
        hasError := false }

/-- The `formatDisplay` render-time formatting rule. -/
def formatDisplay (value : List Char) : List Char :=
  if value = "Error".data then value
  else
    match jsParseFloat value with
    | none => value
    | some num =>
      if sciCond num then toExponential6 num
      else if '.' ∈ value ∧ 12 < value.length then toPrecision10 num
      else value

/-! ### Bridging lemmas: the integer comparisons used by the executable
model agree with the rational value of a `JsDec` -/

lemma ten_pow_split {p e : ℤ} (h : p ≤ e) :
    (10 : ℚ) ^ e = (10 : ℚ) ^ p * (10 : ℚ) ^ ((e - p).toNat) := by
  have h1 : (((e - p).toNat : ℤ)) = e - p := Int.toNat_of_nonneg (by omega)
  rw [← zpow_natCast (10 : ℚ) (e - p).toNat, h1,
    ← zpow_add₀ (by norm_num : (10 : ℚ) ≠ 0)]
  congr 1
  omega

lemma val_abs (d : JsDec) : |d.val| = (d.m.natAbs : ℚ) * (10 : ℚ) ^ d.e := by
  have h1 : (0 : ℚ) < (10 : ℚ) ^ d.e := by positivity
  rw [JsDec.val, abs_mul, abs_of_pos h1, Int.cast_natAbs, Int.cast_abs]

lemma val_eq_zero (d : JsDec) : d.val = 0 ↔ d.m = 0 := by
  unfold JsDec.val
  have h1 : (0 : ℚ) < (10 : ℚ) ^ d.e := by positivity
  simp [mul_eq_zero, ne_of_gt h1]

lemma absGtPow_iff (d : JsDec) (p : ℤ) :
    d.absGtPow p = true ↔ (10 : ℚ) ^ p < |d.val| := by
  unfold JsDec.absGtPow
  split
  next h =>
    rw [decide_eq_true_iff, val_abs, ten_pow_split h]
    have hp : (0 : ℚ) < (10 : ℚ) ^ p := by positivity
    rw [show (d.m.natAbs : ℚ) * ((10 : ℚ) ^ p * (10 : ℚ) ^ ((d.e - p).toNat))
        = (10 : ℚ) ^ p * ((d.m.natAbs : ℚ) * (10 : ℚ) ^ ((d.e - p).toNat)) from by ring,
      lt_mul_iff_one_lt_right hp,
      show ((d.m.natAbs : ℚ) * (10 : ℚ) ^ ((d.e - p).toNat))
        = ((d.m.natAbs * 10 ^ (d.e - p).toNat : ℕ) : ℚ) from by push_cast; ring]
    exact Nat.one_lt_cast.symm
  next h =>
    rw [decide_eq_true_iff, val_abs, ten_pow_split (by omega : d.e ≤ p)]
    have hpe : (0 : ℚ) < (10 : ℚ) ^ d.e := by positivity
    rw [show (10 : ℚ) ^ d.e * (10 : ℚ) ^ ((p - d.e).toNat)
        = (10 : ℚ) ^ ((p - d.e).toNat) * (10 : ℚ) ^ d.e from by ring,
      mul_lt_mul_right hpe,
      show ((10 : ℚ) ^ ((p - d.e).toNat)) = ((10 ^ (p - d.e).toNat : ℕ) : ℚ) from by
        push_cast; ring]
    exact Nat.cast_lt.symm

lemma absLtPow_iff (d : JsDec) (p : ℤ) :
    d.absLtPow p = true ↔ |d.val| < (10 : ℚ) ^ p := by
  unfold JsDec.absLtPow
  split
  next h =>
    rw [decide_eq_true_iff, val_abs, ten_pow_split h]
    have hp : (0 : ℚ) < (10 : ℚ) ^ p := by positivity
    rw [show (d.m.natAbs : ℚ) * ((10 : ℚ) ^ p * (10 : ℚ) ^ ((d.e - p).toNat))
        = (10 : ℚ) ^ p * ((d.m.natAbs : ℚ) * (10 : ℚ) ^ ((d.e - p).toNat)) from by ring,
      mul_lt_iff_lt_one_right hp,
      show ((d.m.natAbs : ℚ) * (10 : ℚ) ^ ((d.e - p).toNat))
        = ((d.m.natAbs * 10 ^ (d.e - p).toNat : ℕ) : ℚ) from by push_cast; ring]
    norm_cast
  next h =>
    rw [decide_eq_true_iff, val_abs, ten_pow_split (by omega : d.e ≤ p)]
    have hpe : (0 : ℚ) < (10 : ℚ) ^ d.e := by positivity
    rw [show (10 : ℚ) ^ d.e * (10 : ℚ) ^ ((p - d.e).toNat)
        = (10 : ℚ) ^ ((p - d.e).toNat) * (10 : ℚ) ^ d.e from by ring,
      mul_lt_mul_right hpe,
      show ((10 : ℚ) ^ ((p - d.e).toNat)) = ((10 ^ (p - d.e).toNat : ℕ) : ℚ) from by
        push_cast; ring]
    exact Nat.cast_lt.symm

/-- The source's scientific-notation guard, read on rational values: it
holds exactly when `|v| > 10 ^ 15` or `0 < |v| < 10 ^ (-6)`. -/
lemma sciCond_iff (d : JsDec) :
    sciCond d = true ↔
      ((10 : ℚ) ^ (15 : ℤ) < |d.val| ∨
        (0 < |d.val| ∧ |d.val| < (10 : ℚ) ^ (-6 : ℤ))) := by
  unfold sciCond
  rw [Bool.or_eq_true, Bool.and_eq_true, absGtPow_iff, absLtPow_iff,
    decide_eq_true_iff]
  have hm : d.m ≠ 0 ↔ 0 < |d.val| := by
    rw [abs_pos, Ne, Ne, val_eq_zero]
  rw [hm]
  tauto

/-! ### Claim theorems -/

/-- Claim C1 (code bug): with `angleMode = DEG` the rewriting step does not
leave inverse-trig arguments alone.  Because `asin(` contains `sin(` and
the direct-trig replacement runs first, `asin(0.5)` is rewritten to
`(180/pi)*asin((pi/180)*0.5)`: the argument receives a `(pi/180)*`
pre-multiplication in addition to the result post-multiplication, contrary
to the documented `asin( → (180/pi)*asin(` rewrite. -/
theorem deg_rewrite_premultiplies_inverse_trig_argument :
    pipelineTransform AngleMode.DEG "asin(0.5)".data
      = "(180/pi)*asin((pi/180)*0.5)".data ∧
    pipelineTransform AngleMode.DEG "asin(0.5)".data
      ≠ "(180/pi)*asin(0.5)".data := by decide

/-- Claim C2 (code bug): `handleFunction` computes `waitingForOperand` as
`func.includes('(')` on the *key name*, and no key name contains an open
parenthesis, so the flag comes out `false` even for the keys whose
fragment ends in `(` — for instance `sin`, `ln` and the square-root key —
although the fragments themselves are appended as specified. -/
theorem handleFunction_never_sets_waitingForOperand :
    (handleFunction "sin".data initialState).expression = "sin(".data ∧
    (handleFunction "sin".data initialState).waitingForOperand = false ∧
    (handleFunction "ln".data initialState).waitingForOperand = false ∧
    (handleFunction "√x".data initialState).waitingForOperand = false := by decide

/-- Claim C3 (code bug): the constant substitution replaces every `e` not
followed by a digit, and in `exp(` the `e` is followed by `x`, so the
`exp(` fragment does not survive: `exp(2)` becomes
`2.718281828459045xp(2)` (the `π` substitution itself behaves as
specified). -/
theorem constant_substitution_mangles_exp :
    substConstants "exp(2)".data = "2.718281828459045xp(2)".data ∧
    substConstants "exp(2)".data ≠ "exp(2)".data ∧
    substConstants "π".data = piLit := by decide

/-- An error state as left by a failed evaluation, with a nonzero memory
register. -/
def errorState : CalculatorState :=
  { display := "Error".data
    expression := []
    memory := JNum.num ⟨5, 0⟩
    angleMode := AngleMode.DEG
    previousAnswer := JNum.num ⟨0, 0⟩
    waitingForOperand := false
    hasError := true }

/-- Claim C4 (code bug): `parseFloat('Error')` is NaN, and the `|| '0'`
fallback fires only on the empty string, so `memoryAdd` and
`memorySubtract` on the error display set `memory` to NaN instead of
leaving it at its previous finite value (the claim is right that
`expression` is untouched). -/
theorem memoryAdd_nan_on_unparseable_display :
    (memoryAdd errorState).memory = JNum.nan ∧
    (memoryAdd errorState).memory ≠ errorState.memory ∧
    (memoryAdd errorState).expression = errorState.expression ∧
    (memorySubtract errorState).memory = JNum.nan ∧
    (memorySubtract errorState).expression = errorState.expression := by decide

/-- Claim C5: on a non-empty expression whose transformed string makes the
evaluator signal failure, `calculate` yields `display = "Error"`, an empty
`expression`, `hasError = true`, and an unchanged `previousAnswer`. -/
theorem calculate_failure_state (toS : JNum → List Char)
    (ev : List Char → Option JsDec) (prev : CalculatorState)
    (hne : prev.expression ≠ [])
    (hev : ev (pipelineTransform prev.angleMode prev.expression) = none) :
    (calculate toS ev prev).display = "Error".data ∧
    (calculate toS ev prev).expression = [] ∧
    (calculate toS ev prev).hasError = true ∧
    (calculate toS ev prev).previousAnswer = prev.previousAnswer := by
  unfold calculate
  rw [if_neg hne, hev]
  exact ⟨rfl, rfl, rfl, rfl⟩

/-- Witness for C5 at the concrete expression `2+` and a failing
evaluator. -/
theorem calculate_failure_state_witness :
    (calculate (fun _ => []) (fun _ => none)
        { initialState with expression := "2+".data }).display = "Error".data ∧
    (calculate (fun _ => []) (fun _ => none)
        { initialState with expression := "2+".data }).expression = [] ∧
    (calculate (fun _ => []) (fun _ => none)
        { initialState with expression := "2+".data }).hasError = true ∧
    (calculate (fun _ => []) (fun _ => none)
        { initialState with expression := "2+".data }).previousAnswer
      = ({ initialState with expression := "2+".data } : CalculatorState).previousAnswer :=
  calculate_failure_state (fun _ => []) (fun _ => none) _ (by decide) rfl

/-- The §3 invariant: an error state carries no residual expression. -/
def errorImpliesEmpty (s : CalculatorState) : Prop :=
  s.hasError = true → s.expression = []

/-- Claim C6: `hasError → expression = ""` holds in `initialState` and is
preserved by every operation, so it holds in every reachable state. -/
theorem hasError_implies_empty_expression_invariant :
    errorImpliesEmpty initialState ∧
    (∀ s num, errorImpliesEmpty s → errorImpliesEmpty (insertNumber num s)) ∧
    (∀ s op, errorImpliesEmpty s → errorImpliesEmpty (insertOperator op s)) ∧
    (∀ s, errorImpliesEmpty s → errorImpliesEmpty (insertDecimal s)) ∧
    (∀ s c, errorImpliesEmpty s → errorImpliesEmpty (insertConstant c s)) ∧
    (∀ s toS, errorImpliesEmpty s → errorImpliesEmpty (insertAnswer toS s)) ∧
    (∀ s func, errorImpliesEmpty s → errorImpliesEmpty (handleFunction func s)) ∧
    (∀ s, errorImpliesEmpty s → errorImpliesEmpty (toggleSign s)) ∧
    (∀ s, errorImpliesEmpty s → errorImpliesEmpty (backspace s)) ∧
    errorImpliesEmpty clearAll ∧
    (∀ s, errorImpliesEmpty s → errorImpliesEmpty (toggleAngleMode s)) ∧
    (∀ s r, errorImpliesEmpty s → errorImpliesEmpty (generateRandom r s)) ∧
    (∀ s, errorImpliesEmpty s → errorImpliesEmpty (memoryAdd s)) ∧
    (∀ s, errorImpliesEmpty s → errorImpliesEmpty (memorySubtract s)) ∧
    (∀ s toS, errorImpliesEmpty s → errorImpliesEmpty (memoryRecall toS s)) ∧
    (∀ s, errorImpliesEmpty s → errorImpliesEmpty (memoryClear s)) ∧
    (∀ s toS ev, errorImpliesEmpty s → errorImpliesEmpty (calculate toS ev s)) := by
  refine ⟨?_, ?_, ?_, ?_, ?_, ?_, ?_, ?_, ?_, ?_, ?_, ?_, ?_, ?_, ?_, ?_, ?_⟩
  · exact fun _ => rfl
  · intro s num h
    unfold errorImpliesEmpty insertNumber
    split
    next => exact fun hE => nomatch hE
    next hcond => exact fun hE => absurd (Or.inr (Or.inr hE)) hcond
  · exact fun s op _ hE => nomatch hE
  · intro s h
    unfold errorImpliesEmpty insertDecimal
    split
    next => exact fun hE => nomatch hE
    next hcond =>
      split
      next => exact fun hE => absurd (Or.inr hE) hcond
      next => exact h
  · exact fun s c _ hE => nomatch hE
  · exact fun s toS _ hE => nomatch hE
  · intro s func h
    unfold errorImpliesEmpty handleFunction
    split
    next => exact h
    next => exact fun hE => nomatch hE
  · intro s h
    unfold errorImpliesEmpty toggleSign
    split
    next => exact h
    next => exact h
  · intro s h
    unfold errorImpliesEmpty backspace
    split
    next => exact fun hE => nomatch hE
    next hcond => exact fun hE => absurd (Or.inl hE) hcond
  · exact fun _ => rfl
  · exact fun s h => h
  · exact fun s r _ hE => nomatch hE
  · exact fun s h => h
  · exact fun s h => h
  · exact fun s toS _ hE => nomatch hE
  · exact fun s h => h
  · intro s toS ev h
    unfold errorImpliesEmpty calculate
    split
    next => exact h
    next =>
      split
      next => exact fun _ => rfl
      next => exact fun hE => nomatch hE

/-- Witness for C6: the invariant transfers through a digit insertion from
the error state. -/
theorem hasError_implies_empty_expression_invariant_witness :
    errorImpliesEmpty (insertNumber ['5'] errorState) :=
  hasError_implies_empty_expression_invariant.2.1 errorState ['5'] (fun _ => rfl)

/-- Claim C7 counterexample: in the error state, `ToggleAngleMode`,
`ToggleSign`, `MemoryAdd` and `MemorySubtract` do *not* clear `hasError`,
contradicting the claim that every non-clear event applied in the error
state yields `hasError = false`. -/
theorem error_not_cleared_by_toggle_and_memory :
    (toggleAngleMode errorState).hasError = true ∧
    (toggleSign errorState).hasError = true ∧
    (memoryAdd errorState).hasError = true ∧
    (memorySubtract errorState).hasError = true := by decide

/-- Claim C7 as amended: from a state with `hasError = true`, the
insertion and editing events (digit, operator, decimal, constant, answer,
recognized function key, backspace, memory recall, random, clear) yield
`hasError = false` and apply their effect, while `ToggleSign` is a no-op
and `ToggleAngleMode`, `MemoryAdd`, `MemorySubtract`, `MemoryClear` apply
their effect but leave `hasError = true`; `Evaluate` is a no-op when the
expression is empty. -/
theorem error_state_event_effects (s : CalculatorState) (h : s.hasError = true) :
    (∀ num, (insertNumber num s).hasError = false) ∧
    (∀ op, (insertOperator op s).hasError = false) ∧
    (insertDecimal s).hasError = false ∧
    (∀ c, (insertConstant c s).hasError = false) ∧
    (∀ toS, (insertAnswer toS s).hasError = false) ∧
    (∀ func frag, fragmentOf func = some frag → (handleFunction func s).hasError = false) ∧
    (backspace s).hasError = false ∧
    (∀ toS, (memoryRecall toS s).hasError = false) ∧
    (∀ r, (generateRandom r s).hasError = false) ∧
    clearAll.hasError = false ∧
    toggleSign s = s ∧
    (toggleAngleMode s).hasError = true ∧
    (memoryAdd s).hasError = true ∧
    (memorySubtract s).hasError = true ∧
    (memoryClear s).hasError = true ∧
    (∀ toS ev, s.expression = [] → calculate toS ev s = s) := by
  refine ⟨?_, ?_, ?_, ?_, ?_, ?_, ?_, ?_, ?_, rfl, ?_, h, h, h, h, ?_⟩
  · intro num
    unfold insertNumber
    rw [if_pos (Or.inr (Or.inr h))]
  · exact fun op => rfl
  · unfold insertDecimal
    rw [if_pos (Or.inr h)]
  · exact fun c => rfl
  · exact fun toS => rfl
  · intro func frag hf
    unfold handleFunction
    rw [hf]
  · unfold backspace
    rw [if_pos (Or.inl h)]
  · exact fun toS => rfl
  · exact fun r => rfl
  · unfold toggleSign
    rw [if_pos (Or.inr h)]
  · intro toS ev he
    unfold calculate
    rw [if_pos he]

/-- Witness for the amended C7 at the concrete error state. -/
theorem error_state_event_effects_witness :
    (insertNumber ['5'] errorState).hasError = false ∧
    (toggleAngleMode errorState).hasError = true :=
  ⟨(error_state_event_effects errorState rfl).1 ['5'],
   (error_state_event_effects errorState rfl).2.2.2.2.2.2.2.2.2.2.2.1⟩

/-! ### Digit-only input sequences (claim C8) -/

/-- Folding a digit sequence through `insertNumber`. -/
def applyDigits (ds : List Char) (s : CalculatorState) : CalculatorState :=
  ds.foldl (fun st d => insertNumber [d] st) s

/-- One digit step of the display, as `insertNumber` performs it when not
waiting for an operand and not in error: a `"0"` display is replaced, any
other display is extended. -/
def digitDisplayStep (cur : List Char) (d : Char) : List Char :=
  if cur = "0".data then [d] else cur ++ [d]

lemma insertNumber_digit_closed (s : CalculatorState) (d : Char)
    (hw : s.waitingForOperand = false) (he : s.hasError = false) :
    insertNumber [d] s =
      { s with
        display := digitDisplayStep s.display d
        expression := s.expression ++ [d]
        waitingForOperand := false
        hasError := false } := by
  unfold insertNumber digitDisplayStep
  by_cases hd : s.display = "0".data
  · rw [if_pos (Or.inr (Or.inl hd)), if_pos hd]
  · rw [if_neg ?_, if_neg hd]
    · cases s
      simp_all
    · simp [hw, he, hd]

lemma applyDigits_closed (ds : List Char) :
    ∀ s : CalculatorState, s.waitingForOperand = false → s.hasError = false →
      applyDigits ds s =
        { s with
          display := ds.foldl digitDisplayStep s.display
          expression := s.expression ++ ds
          waitingForOperand := false
          hasError := false } := by
  induction ds with
  | nil =>
    intro s hw he
    cases s
    simp_all [applyDigits]
  | cons d ds ih =>
    intro s hw he
    show applyDigits ds (insertNumber [d] s) = _
    rw [insertNumber_digit_closed s d hw he, ih _ rfl rfl]
    simp

lemma foldl_digitDisplayStep_digits (ds : List Char) :
    ∀ cur : List Char, (∀ c ∈ cur, c.isDigit) → (∀ d ∈ ds, d.isDigit) →
      ∀ c ∈ ds.foldl digitDisplayStep cur, c.isDigit := by
  induction ds with
  | nil => exact fun cur hc _ => hc
  | cons d ds ih =>
    intro cur hc hd
    simp only [List.foldl_cons]
    apply ih
    · intro c hcm
      unfold digitDisplayStep at hcm
      split at hcm
      · rw [List.mem_singleton] at hcm
        exact hcm ▸ hd d (List.mem_cons_self d ds)
      · rcases List.mem_append.mp hcm with hmem | hmem
        · exact hc c hmem
        · rw [List.mem_singleton] at hmem
          exact hmem ▸ hd d (List.mem_cons_self d ds)
    · exact fun x hx => hd x (List.mem_cons_of_mem d hx)

lemma foldl_digitDisplayStep_nonzero_head (ds : List Char) :
    ∀ (a : Char) (t : List Char), a ≠ '0' →
      List.foldl digitDisplayStep (a :: t) ds = a :: (t ++ ds) := by
  induction ds with
  | nil => intro a t ha; simp
  | cons d ds ih =>
    intro a t ha
    have hstep : digitDisplayStep (a :: t) d = a :: (t ++ [d]) := by
      unfold digitDisplayStep
      rw [if_neg]
      · simp
      · intro hcontra
        rw [show "0".data = ['0'] from rfl] at hcontra
        exact ha (List.cons.injEq .. ▸ hcontra).1
    simp only [List.foldl_cons, hstep]
    rw [ih a (t ++ [d]) ha]
    simp

/-- Claim C8 counterexample: inserting the digits `0` then `5` from
`initialState` leaves `display = "5"` but `expression = "05"`, so
`display == expression` fails for a digit-only sequence. -/
theorem digit_sequence_display_ne_expression :
    (applyDigits ['0', '5'] initialState).display = "5".data ∧
    (applyDigits ['0', '5'] initialState).expression = "05".data ∧
    (applyDigits ['0', '5'] initialState).display
      ≠ (applyDigits ['0', '5'] initialState).expression := by decide

/-- Claim C8 as amended: for every digit-only sequence from
`initialState`, `expression` is exactly the inserted digit string, both
`display` and `expression` contain only digits (hence no `.` at all), and
`display == expression` does hold whenever the sequence starts with a
nonzero digit. -/
theorem digit_only_sequences (ds : List Char) (hds : ∀ d ∈ ds, d.isDigit) :
    (applyDigits ds initialState).expression = ds ∧
    (∀ c ∈ (applyDigits ds initialState).expression, c.isDigit) ∧
    (∀ c ∈ (applyDigits ds initialState).display, c.isDigit) ∧
    '.' ∉ (applyDigits ds initialState).display ∧
    '.' ∉ (applyDigits ds initialState).expression ∧
    (∀ d t, ds = d :: t → d ≠ '0' →
      (applyDigits ds initialState).display = (applyDigits ds initialState).expression) := by
  have hclosed := applyDigits_closed ds initialState rfl rfl
  have hExpr : (applyDigits ds initialState).expression = ds := by rw [hclosed]; rfl
  have hDisp : (applyDigits ds initialState).display
      = ds.foldl digitDisplayStep "0".data := by rw [hclosed]; rfl
  have hdisp : ∀ c ∈ ds.foldl digitDisplayStep "0".data, c.isDigit :=
    foldl_digitDisplayStep_digits ds "0".data (by decide) hds
  refine ⟨hExpr, ?_, ?_, ?_, ?_, ?_⟩
  · rw [hExpr]; exact hds
  · rw [hDisp]; exact hdisp
  · rw [hDisp]
    intro hmem
    have h2 := hdisp '.' hmem
    simp at h2
  · rw [hExpr]
    intro hmem
    have h2 := hds '.' hmem
    simp at h2
  · intro d t hdt hd0
    rw [hDisp, hExpr, hdt]
    simp only [List.foldl_cons]
    rw [show digitDisplayStep "0".data d = [d] from by
        unfold digitDisplayStep; rw [if_pos rfl],
      foldl_digitDisplayStep_nonzero_head t d [] hd0]
    simp

/-- Witness for the amended C8 on the digit sequence `1, 0, 2`. -/
theorem digit_only_sequences_witness :
    (applyDigits ['1', '0', '2'] initialState).expression = ['1', '0', '2'] ∧
    (applyDigits ['1', '0', '2'] initialState).display
      = (applyDigits ['1', '0', '2'] initialState).expression :=
  ⟨(digit_only_sequences ['1', '0', '2'] (by decide)).1,
   (digit_only_sequences ['1', '0', '2'] (by decide)).2.2.2.2.2 '1' ['0', '2'] rfl (by decide)⟩

/-- Claim C9: the formatting rule renders in scientific notation with six
fractional digits exactly under the guard `|v| > 1e15 ∨ 0 < |v| < 1e-6`
(stated on the rational value of the parsed display string); in
particular `1e15` itself is not exponential-formatted while
`1.0000001e15` is, `"Error"` passes through unchanged, and a decimal
string with a point and more than twelve characters is rounded to ten
significant digits. -/
theorem formatDisplay_spec :
    (formatDisplay "Error".data = "Error".data) ∧
    (∀ v num, jsParseFloat v = some num →
      ((10 : ℚ) ^ (15 : ℤ) < |num.val| ∨
        (0 < |num.val| ∧ |num.val| < (10 : ℚ) ^ (-6 : ℤ))) →
      formatDisplay v = toExponential6 num) ∧
    (∀ v num, jsParseFloat v = some num →
      ¬((10 : ℚ) ^ (15 : ℤ) < |num.val| ∨
        (0 < |num.val| ∧ |num.val| < (10 : ℚ) ^ (-6 : ℤ))) →
      '.' ∈ v → 12 < v.length → formatDisplay v = toPrecision10 num) ∧
    (formatDisplay "1000000000000000".data = "1000000000000000".data) ∧
    (formatDisplay "1000000100000000".data = "1.000000e+15".data) := by
  refine ⟨by decide, ?_, ?_, by decide, by decide⟩
  · intro v num h hc
    have hv : v ≠ "Error".data := by
      intro hveq
      rw [hveq, show jsParseFloat "Error".data = none from rfl] at h
      exact Option.noConfusion h
    have hcond : sciCond num = true := (sciCond_iff num).mpr hc
    unfold formatDisplay
    rw [if_neg hv, h]
    show (if sciCond num then toExponential6 num
          else if '.' ∈ v ∧ 12 < v.length then toPrecision10 num else v)
        = toExponential6 num
    rw [if_pos hcond]
  · intro v num h hc hdot hlen
    have hv : v ≠ "Error".data := by
      intro hveq
      rw [hveq, show jsParseFloat "Error".data = none from rfl] at h
      exact Option.noConfusion h
    have hcond : sciCond num = false := by
      cases hcb : sciCond num
      · rfl
      · exact absurd ((sciCond_iff num).mp hcb) hc
    have hnot : ¬(sciCond num = true) := by
      rw [hcond]
      exact Bool.false_ne_true
    unfold formatDisplay
    rw [if_neg hv, h]
    show (if sciCond num then toExponential6 num
          else if '.' ∈ v ∧ 12 < v.length then toPrecision10 num else v)
        = toPrecision10 num
    rw [if_neg hnot, if_pos ⟨hdot, hlen⟩]

/-- Witness for C9: the string `0.0000001` parses to the decimal
`1 * 10 ^ (-7)`, which lies in the small-magnitude branch of the guard. -/
theorem formatDisplay_spec_witness :
    formatDisplay "0.0000001".data = toExponential6 ⟨1, -7⟩ := by
  apply formatDisplay_spec.2.1 "0.0000001".data ⟨1, -7⟩ (by decide)
  right
  have hval : (JsDec.mk 1 (-7)).val = (10 : ℚ) ^ (-7 : ℤ) := by
    unfold JsDec.val
    norm_num
  have hp : (0 : ℚ) < (10 : ℚ) ^ (-7 : ℤ) := by positivity
  rw [hval, abs_of_pos hp]
  exact ⟨hp, zpow_lt_zpow_right₀ (by norm_num) (by norm_num)⟩

/-- Claim C10: `insertOperator` never changes `display` and always sets
`hasError := false`, so applying it in the error state reached by a
failed evaluation of `2+` yields a reachable state whose display is the
literal `Error` while `hasError` is `false`, with the operator appended
to the (empty) expression. -/
theorem error_display_with_flag_cleared :
    (∀ (s : CalculatorState) (op : Char),
      (insertOperator op s).display = s.display ∧
      (insertOperator op s).hasError = false) ∧
    ((calculate (fun _ => []) (fun _ => none)
        (insertOperator '+' (insertNumber ['2'] initialState))).display = "Error".data ∧
      (calculate (fun _ => []) (fun _ => none)
        (insertOperator '+' (insertNumber ['2'] initialState))).hasError = true) ∧
    ((insertOperator '+' (calculate (fun _ => []) (fun _ => none)
        (insertOperator '+' (insertNumber ['2'] initialState)))).display = "Error".data ∧
      (insertOperator '+' (calculate (fun _ => []) (fun _ => none)
        (insertOperator '+' (insertNumber ['2'] initialState)))).hasError = false ∧
      (insertOperator '+' (calculate (fun _ => []) (fun _ => none)
        (insertOperator '+' (insertNumber ['2'] initialState)))).expression = ['+']) :=
  ⟨fun s op => ⟨rfl, rfl⟩, by decide, by decide⟩
